import Mathlib

/-!
Shallow embedding of the Valuation & Institutional-Activity Analytics Engine
of the indian-market-stock-price-tracker repository, together with theorems
settling the frozen claims about it.

Sources embedded:
* src/lib/getUndervaluedStocks.ts  (valuation scorer and flag-overwrite pass)
* src/lib/fiiDiiService.ts         (quarter arithmetic, the resilient FII/DII
  normalizer, the change/significance classifier, the significant-activity query)
* src/unnamed/part_002             (quarter-result scheduler: quarter arithmetic,
  upsert, generation pass, announce transition)

Modelling conventions:
* JS numbers are modelled as rationals; `number | null` fields as `Option ℚ`.
  `toFixed(2)` is modelled by `round2` (round to nearest hundredth).
* Period tokens `Q<n>-<year>` are modelled post-parse as a `Quarter` structure
  holding the quarter number and year; `quarterToken` renders the string form
  used where the source compares tokens as strings.
* JS `Date` values are modelled as calendar datetimes `JsDate` with the
  day-overflow normalization `new Date(y, m, d)` performs, and compared
  lexicographically, which agrees with JS ordering of valid dates.
* The database is modelled as an in-memory list of records; prisma
  `findUnique`/`findFirst` as `List.find?`, `upsert` keyed on the natural key
  as update-in-place or append.
-/

namespace StockTracker

/-- A parsed period token `Q<num>-<year>`.  The source stores tokens as
strings and re-parses them with `split("-")` / `parseInt`; the arithmetic it
performs after parsing is embedded on this structure. -/
structure Quarter where
  num : Nat
  year : Int
deriving DecidableEq

/-- Renders the token string `Q<num>-<year>`, as the template literal
`Q${quarter}-${year}` does in the source. -/
def quarterToken (q : Quarter) : String :=
  "Q" ++ toString q.num ++ "-" ++ toString q.year

/-- `getPreviousQuarter` from src/lib/fiiDiiService.ts (lines 83-93):
Q1 of a year maps to Q4 of the prior year, otherwise the quarter number is
decremented. -/
def getPreviousQuarter (q : Quarter) : Quarter :=
  if q.num = 1 then ⟨4, q.year - 1⟩ else ⟨q.num - 1, q.year⟩

/-- `getNextQuarter` from src/unnamed/part_002 (lines 62-72):
Q4 of a year maps to Q1 of the next year, otherwise the quarter number is
incremented. -/
def getNextQuarter (q : Quarter) : Quarter :=
  if q.num = 4 then ⟨1, q.year + 1⟩ else ⟨q.num + 1, q.year⟩

/-- JS `Date` value: calendar date plus a time-of-day component (the
time-of-day is zero for dates built by `new Date(y, m, d)` and is used to
model `new Date()` taken mid-day).  `month0` is 0-indexed as in JS. -/
structure JsDate where
  year : Int
  month0 : Nat
  day : Nat
  timeOfDay : ℚ
deriving DecidableEq

/-- Gregorian leap-year rule, as used by JS `Date` normalization. -/
def isLeapYear (y : Int) : Bool :=
  (y % 4 == 0 && y % 100 != 0) || (y % 400 == 0)

/-- Number of days of the (0-indexed) month `m0` of year `y`. -/
def daysInMonth (y : Int) (m0 : Nat) : Nat :=
  if m0 = 1 then (if isLeapYear y then 29 else 28)
  else if m0 = 3 ∨ m0 = 5 ∨ m0 = 8 ∨ m0 = 10 then 30
  else 31

/-- One step of JS `Date` day-overflow normalization: if the day exceeds the
month length, carry into the next month.  A single step suffices for any day
value up to 59; `new Date(y, m, d)` in the source is only reached with
`d ≤ 31`. -/
def carryDayOverflow (d : JsDate) : JsDate :=
  if d.day ≤ daysInMonth d.year d.month0 then d
  else if d.month0 = 11 then
    ⟨d.year + 1, 0, d.day - daysInMonth d.year d.month0, d.timeOfDay⟩
  else
    ⟨d.year, d.month0 + 1, d.day - daysInMonth d.year d.month0, d.timeOfDay⟩

/-- `new Date(y, m0, d)` for `d ≤ 31`: midnight of the given calendar day,
with day overflow normalized into the following month. -/
def mkJsDate (y : Int) (m0 : Nat) (d : Nat) : JsDate :=
  carryDayOverflow ⟨y, m0, d, 0⟩

/-- JS `<` on `Date` values: lexicographic on (year, month, day, time). -/
def JsDate.jsLt (a b : JsDate) : Bool :=
  decide (a.year < b.year) ||
    (a.year == b.year &&
      (a.month0 < b.month0 ||
        (a.month0 == b.month0 &&
          (a.day < b.day ||
            (a.day == b.day && decide (a.timeOfDay < b.timeOfDay))))))

/-- `getQuarterEndDate` from src/lib/fiiDiiService.ts (lines 98-108):
`month = quarterNum * 3 - 1` (0-indexed), and the day is 31 unless the month
index is 11 (then 31) or is one of 3, 6, 9 (then 30) — note the comparison
set `[3, 6, 9]` holds 1-indexed month numbers while `month` is 0-indexed. -/
def getQuarterEndDateFiiDii (q : Quarter) : JsDate :=
  let month : Nat := q.num * 3 - 1
  let day : Nat := if month = 11 then 31
    else if month = 3 ∨ month = 6 ∨ month = 9 then 30
    else 31
  mkJsDate q.year month day

/-- `getQuarterEndDate` from src/unnamed/part_002 (lines 77-107): explicit
per-quarter month and day (Mar 31, Jun 30, Sep 30, Dec 31). -/
def getQuarterEndDateQr (q : Quarter) : JsDate :=
  if q.num = 1 then mkJsDate q.year 2 31
  else if q.num = 2 then mkJsDate q.year 5 30
  else if q.num = 3 then mkJsDate q.year 8 30
  else mkJsDate q.year 11 31

/-- `getExpectedAnnouncementDate` from src/unnamed/part_002 (lines 113-117):
`setDate(getDate() + 45)`, i.e. add 45 days with calendar normalization.
Three carry steps are enough since the starting day is at most 31 + 45. -/
def getExpectedAnnouncementDate (d : JsDate) : JsDate :=
  carryDayOverflow (carryDayOverflow (carryDayOverflow
    ⟨d.year, d.month0, d.day + 45, d.timeOfDay⟩))

/-- `getCurrentQuarter` (both copies in the source): quarter number from the
0-indexed month as `floor(month / 3) + 1`, applied here to an explicit clock
value instead of the ambient wall clock. -/
def getCurrentQuarterAt (now : JsDate) : Quarter :=
  ⟨now.month0 / 3 + 1, now.year⟩

/-- Claim C2: the part_002 implementation of `getQuarterEndDate` does return
Mar 31 / Jun 30 / Sep 30 / Dec 31 of the period's own year for Q1..Q4, for
every year; but the fiiDiiService implementation is wrong for Q2 and Q3: its
day table tests the 0-indexed month against the 1-indexed set `[3, 6, 9]`,
so it builds `new Date(y, 5, 31)` and `new Date(y, 8, 31)`, which normalize
to July 1 and October 1.  The claim therefore fails for one of the two
implementations it covers. -/
theorem quarter_end_date_both_impls :
    (∀ y : Int,
      getQuarterEndDateQr ⟨1, y⟩ = ⟨y, 2, 31, 0⟩ ∧
      getQuarterEndDateQr ⟨2, y⟩ = ⟨y, 5, 30, 0⟩ ∧
      getQuarterEndDateQr ⟨3, y⟩ = ⟨y, 8, 30, 0⟩ ∧
      getQuarterEndDateQr ⟨4, y⟩ = ⟨y, 11, 31, 0⟩) ∧
    getQuarterEndDateFiiDii ⟨2, 2025⟩ = ⟨2025, 6, 1, 0⟩ ∧
    getQuarterEndDateFiiDii ⟨3, 2025⟩ = ⟨2025, 9, 1, 0⟩ := by
  refine ⟨fun y => ?_, by decide, by decide⟩
  refine ⟨?_, ?_, ?_, ?_⟩ <;>
    simp [getQuarterEndDateQr, mkJsDate, carryDayOverflow, daysInMonth]

/-- Claim C8: for every well-formed period token (quarter number between 1 and 4),
`getNextQuarter` (part_002) applied after `getPreviousQuarter`
(fiiDiiService) round-trips to the original period, including across year
boundaries. -/
theorem next_previous_roundtrip (q : Quarter) (h1 : 1 ≤ q.num) (h4 : q.num ≤ 4) :
    getNextQuarter (getPreviousQuarter q) = q := by
  obtain ⟨n, y⟩ := q
  simp only [Quarter.mk.injEq] at *
  interval_cases n <;>
    simp [getPreviousQuarter, getNextQuarter]

/-- Witness for C8 at the year-boundary token Q1-2025. -/
theorem next_previous_roundtrip_witness :
    1 ≤ (⟨1, 2025⟩ : Quarter).num ∧ (⟨1, 2025⟩ : Quarter).num ≤ 4 ∧
    getNextQuarter (getPreviousQuarter ⟨1, 2025⟩) = ⟨1, 2025⟩ :=
  ⟨by decide, by decide, next_previous_roundtrip ⟨1, 2025⟩ (by decide) (by decide)⟩

/-! ## Valuation scorer (src/lib/getUndervaluedStocks.ts) -/

/-- One row of the `stock` table, with the fields the scorer reads and the
derived flag it overwrites. -/
structure Stock where
  id : String
  currentPrice : ℚ
  peRatio : Option ℚ
  weekHigh : ℚ
  weekLow : ℚ
  marketCap : Option ℚ
  isUndervalued : Bool
deriving DecidableEq

/-- Factor 1 (lines 44-52): `stock.peRatio && stock.peRatio > 0` (the JS
truthiness test plus the explicit positivity test amount to `0 < p`), then
+30 below 15 and +15 below 20. -/
def peFactor (s : Stock) : Nat :=
  match s.peRatio with
  | none => 0
  | some p =>
    if 0 < p then (if p < 15 then 30 else if p < 20 then 15 else 0) else 0

/-- Factor 2 (lines 55-67): percentage below the 52-week high, guarded by
`weekHigh > 0 && currentPrice > 0`. -/
def highFactor (s : Stock) : Nat :=
  if 0 < s.weekHigh ∧ 0 < s.currentPrice then
    let priceFromHigh := (s.weekHigh - s.currentPrice) / s.weekHigh * 100
    if 30 < priceFromHigh then 40
    else if 20 < priceFromHigh then 25
    else if 10 < priceFromHigh then 10
    else 0
  else 0

/-- Factor 3 (lines 70-76): percentage above the 52-week low, rewarded only
in the open band (20, 50). -/
def lowFactor (s : Stock) : Nat :=
  if 0 < s.weekLow ∧ 0 < s.currentPrice then
    let priceFromLow := (s.currentPrice - s.weekLow) / s.weekLow * 100
    if 20 < priceFromLow ∧ priceFromLow < 50 then 20 else 0
  else 0

/-- Factor 4 (lines 81-87): `if (stock.marketCap)` is the JS truthiness test
(null and 0 are skipped), then +10 below the fixed small-cap threshold. -/
def mcapFactor (s : Stock) : Nat :=
  match s.marketCap with
  | none => 0
  | some m => if m ≠ 0 ∧ m < 50000000000 then 10 else 0

/-- The additive undervaluation score accumulated over the four factors
(lines 40-87). -/
def undervaluedScore (s : Stock) : Nat :=
  peFactor s + highFactor s + lowFactor s + mcapFactor s

/-- The rows the pass scores: the `findMany` filter `currentPrice > 0`
(lines 26-35), then the `score >= 30` admission test (line 90). -/
def undervaluedSelection (db : List Stock) : List Stock :=
  (db.filter fun s => decide (0 < s.currentPrice)).filter
    fun s => decide (30 ≤ undervaluedScore s)

/-- The returned list, sorted by score descending (line 100). -/
def undervaluedSorted (db : List Stock) : List Stock :=
  (undervaluedSelection db).mergeSort
    fun a b => decide (undervaluedScore b ≤ undervaluedScore a)

/-- The ids whose flag the first `updateMany` sets (line 103). -/
def undervaluedIds (db : List Stock) : List String :=
  (undervaluedSorted db).map Stock.id

/-- Effect of the two `updateMany` calls (lines 104-124) on one row: ids in
the undervalued list get the flag set, all others get it cleared. -/
def flagUpdate (db : List Stock) (s : Stock) : Stock :=
  if s.id ∈ undervaluedIds db then { s with isUndervalued := true }
  else { s with isUndervalued := false }

/-- `getUndervaluedStocks`: the scored-and-sorted result list together with
the stock table after the wholesale flag overwrite. -/
def getUndervaluedStocks (db : List Stock) : List Stock × List Stock :=
  (undervaluedSorted db, db.map (flagUpdate db))

theorem peFactor_le (s : Stock) : peFactor s ≤ 30 := by
  unfold peFactor
  rcases s.peRatio with _ | p
  · simp
  · dsimp only
    split_ifs <;> simp

theorem highFactor_le (s : Stock) : highFactor s ≤ 40 := by
  unfold highFactor
  dsimp only
  split_ifs <;> simp

theorem lowFactor_le (s : Stock) : lowFactor s ≤ 20 := by
  unfold lowFactor
  dsimp only
  split_ifs <;> simp

theorem mcapFactor_le (s : Stock) : mcapFactor s ≤ 10 := by
  unfold mcapFactor
  rcases s.marketCap with _ | m
  · simp
  · dsimp only
    split_ifs <;> simp

/-- Membership in the id list written by the pass is exactly the admission
condition, provided ids are unique (the table's primary key). -/
theorem mem_undervaluedIds (db : List Stock) (hids : (db.map Stock.id).Nodup)
    (s : Stock) (hs : s ∈ db) :
    s.id ∈ undervaluedIds db ↔ (0 < s.currentPrice ∧ 30 ≤ undervaluedScore s) := by
  unfold undervaluedIds undervaluedSorted
  rw [(List.mergeSort_perm (undervaluedSelection db) _).map Stock.id |>.mem_iff]
  unfold undervaluedSelection
  simp only [List.mem_map, List.mem_filter, decide_eq_true_eq]
  constructor
  · rintro ⟨t, ⟨⟨ht, htp⟩, hts⟩, hid⟩
    have : t = s := List.inj_on_of_nodup_map hids ht hs hid
    subst this
    exact ⟨htp, hts⟩
  · rintro ⟨hp, hsc⟩
    exact ⟨s, ⟨⟨hs, hp⟩, hsc⟩, rfl⟩

/-- Claim C1: after a scoring pass, for every stored stock with a positive current
price the score lies in [0, 100], and the flag stored for that stock (the
table after the pass is exactly `db.map (flagUpdate db)`) is set iff the
score is at least 30. -/
theorem undervalued_pass_invariant (db : List Stock)
    (hids : (db.map Stock.id).Nodup) (s : Stock) (hs : s ∈ db)
    (hp : 0 < s.currentPrice) :
    undervaluedScore s ≤ 100 ∧
    (getUndervaluedStocks db).2 = db.map (flagUpdate db) ∧
    (flagUpdate db s).isUndervalued = decide (30 ≤ undervaluedScore s) := by
  refine ⟨?_, rfl, ?_⟩
  · have h1 := peFactor_le s
    have h2 := highFactor_le s
    have h3 := lowFactor_le s
    have h4 := mcapFactor_le s
    unfold undervaluedScore
    omega
  · unfold flagUpdate
    by_cases hmem : s.id ∈ undervaluedIds db
    · have := (mem_undervaluedIds db hids s hs).1 hmem
      simp [hmem, this.2]
    · have : ¬ 30 ≤ undervaluedScore s := fun hc =>
        hmem ((mem_undervaluedIds db hids s hs).2 ⟨hp, hc⟩)
      simp [hmem, this]

/-- Concrete stock of testable-property Scenario A: price 100, P/E 12,
52-week band [80, 200], no market cap; score 90. -/
def stockA : Stock :=
  ⟨"A", 100, some 12, 200, 80, none, false⟩

/-- Witness for C1 on the one-row table holding `stockA`. -/
theorem undervalued_pass_invariant_witness :
    (([stockA].map Stock.id).Nodup ∧ stockA ∈ [stockA] ∧ 0 < stockA.currentPrice) ∧
    (undervaluedScore stockA ≤ 100 ∧
      (getUndervaluedStocks [stockA]).2 = [stockA].map (flagUpdate [stockA]) ∧
      (flagUpdate [stockA] stockA).isUndervalued = decide (30 ≤ undervaluedScore stockA)) :=
  ⟨⟨by decide, by simp, by decide⟩,
    undervalued_pass_invariant [stockA] (by decide) stockA (by simp) (by decide)⟩

/-! ## FII/DII holdings and the change/significance classifier
(src/lib/fiiDiiService.ts) -/

/-- Round a rational to the nearest integer, ties toward positive infinity
(`floor (x + 1/2)`, computed on the reduced fraction so that concrete values
evaluate). -/
def ratRound (x : ℚ) : ℤ := Int.fdiv (2 * x.num + x.den) (2 * x.den)

/-- Model of `Number(x).toFixed(2)` followed by `parseFloat`: round to the
nearest hundredth (ECMA toFixed picks the larger candidate on ties). -/
def round2 (x : ℚ) : ℚ := (ratRound (x * 100) : ℚ) / 100

/-- The `FiiDiiData` interface (lines 23-30): the normalizer's returned
holdings record. -/
structure FiiDiiData where
  symbol : String
  quarter : String
  quarterEndDate : JsDate
  fiiHolding : Option ℚ
  diiHolding : Option ℚ
  totalInstitutional : Option ℚ
deriving DecidableEq

/-- One row of the `fiiDiiHolding` table: the persisted record the classifier
reads as the prior-period baseline and the significant-activity query
returns. -/
structure FiiDiiHoldingRec where
  stockId : String
  quarter : String
  fiiHolding : Option ℚ
  diiHolding : Option ℚ
  totalInstitutional : Option ℚ
  fiiChange : Option ℚ
  diiChange : Option ℚ
  totalChange : Option ℚ
  isSignificant : Bool
deriving DecidableEq

/-- One delta of `calculateFiiDiiChanges` (lines 632-660): the guard
`previousData.x && currentData.x !== null` is JS truthiness on the prior
value (null and 0 both fail) plus an explicit null test on the current
value; when it passes, the percentage change is computed and rounded to two
decimals. -/
def pctChange (prev cur : Option ℚ) : Option ℚ :=
  match prev, cur with
  | some p, some c => if p ≠ 0 then some (round2 ((c - p) / p * 100)) else none
  | _, _ => none

/-- One disjunct of the significance test (lines 663-666): the delta is
non-null and has absolute value at least 5. -/
def sigAbs (d : Option ℚ) : Bool :=
  match d with
  | none => false
  | some x => decide (5 ≤ |x|)

/-- The classifier's result record. -/
structure FiiDiiChanges where
  fiiChange : Option ℚ
  diiChange : Option ℚ
  totalChange : Option ℚ
  isSignificant : Bool
deriving DecidableEq

/-- `calculateFiiDiiChanges` (lines 606-675), with the prior-period database
lookup passed in as `previousData`: when no prior record exists all deltas
stay null and the record is not significant; otherwise each delta is
computed independently and significance is the disjunction of the three
`sigAbs` tests. -/
def calculateFiiDiiChanges (previousData : Option FiiDiiHoldingRec)
    (currentData : FiiDiiData) : FiiDiiChanges :=
  match previousData with
  | none => ⟨none, none, none, false⟩
  | some prev =>
    let fiiChange := pctChange prev.fiiHolding currentData.fiiHolding
    let diiChange := pctChange prev.diiHolding currentData.diiHolding
    let totalChange := pctChange prev.totalInstitutional currentData.totalInstitutional
    ⟨fiiChange, diiChange, totalChange,
      sigAbs fiiChange || sigAbs diiChange || sigAbs totalChange⟩

theorem sigAbs_eq_true (d : Option ℚ) :
    sigAbs d = true ↔ ∃ x, d = some x ∧ 5 ≤ |x| := by
  rcases d with _ | x <;> simp [sigAbs]

/-- Claim C6: the classifier marks a record significant iff at least one of the
three computed deltas is non-null with absolute value at least 5; with no
prior-period record the flag is false. -/
theorem significance_iff (previousData : Option FiiDiiHoldingRec)
    (currentData : FiiDiiData) :
    ((calculateFiiDiiChanges previousData currentData).isSignificant = true ↔
      ∃ x, ((calculateFiiDiiChanges previousData currentData).fiiChange = some x ∨
            (calculateFiiDiiChanges previousData currentData).diiChange = some x ∨
            (calculateFiiDiiChanges previousData currentData).totalChange = some x) ∧
           5 ≤ |x|) ∧
    (calculateFiiDiiChanges none currentData).isSignificant = false := by
  constructor
  · rcases previousData with _ | prev
    · simp [calculateFiiDiiChanges]
    · simp only [calculateFiiDiiChanges, Bool.or_eq_true, sigAbs_eq_true]
      constructor
      · rintro ((⟨x, hx, h5⟩ | ⟨x, hx, h5⟩) | ⟨x, hx, h5⟩) <;>
          exact ⟨x, by simp [hx], h5⟩
      · rintro ⟨x, (hx | hx | hx), h5⟩
        · exact Or.inl (Or.inl ⟨x, hx, h5⟩)
        · exact Or.inl (Or.inr ⟨x, hx, h5⟩)
        · exact Or.inr ⟨x, hx, h5⟩
  · simp [calculateFiiDiiChanges]

/-- Claim C7: each delta independently is null whenever the prior value is absent
or zero or the current value is null, and equals the rounded percentage
change when the prior value is present and nonzero; the classifier's three
delta fields are exactly these per-field computations. -/
theorem delta_null_safety :
    (∀ (prev : FiiDiiHoldingRec) (cur : FiiDiiData),
      (calculateFiiDiiChanges (some prev) cur).fiiChange
          = pctChange prev.fiiHolding cur.fiiHolding ∧
      (calculateFiiDiiChanges (some prev) cur).diiChange
          = pctChange prev.diiHolding cur.diiHolding ∧
      (calculateFiiDiiChanges (some prev) cur).totalChange
          = pctChange prev.totalInstitutional cur.totalInstitutional) ∧
    (∀ c, pctChange none c = none) ∧
    (∀ c, pctChange (some 0) c = none) ∧
    (∀ p, pctChange (some p) none = none) ∧
    (∀ p c : ℚ, p ≠ 0 →
      pctChange (some p) (some c) = some (round2 ((c - p) / p * 100))) := by
  refine ⟨fun prev cur => ⟨rfl, rfl, rfl⟩, fun c => ?_, fun c => ?_, fun p => rfl,
    fun p c hp => ?_⟩
  · rcases c with _ | x <;> rfl
  · rcases c with _ | x <;> simp [pctChange]
  · simp [pctChange, hp]

/-- Witness for C7 at testable-property Scenario C: prior FII 20, current
FII 23 gives a 15 percent delta. -/
theorem delta_null_safety_witness :
    (20 : ℚ) ≠ 0 ∧
    pctChange (some 20) (some 23) = some (round2 ((23 - 20) / 20 * 100)) :=
  ⟨by norm_num, delta_null_safety.2.2.2.2 20 23 (by norm_num)⟩

/-! ## Resilient data normalizer (src/lib/fiiDiiService.ts) -/

/-- Lines 517-520: `(fiiHolding !== null || diiHolding !== null) ?
(fiiHolding || 0) + (diiHolding || 0) : null`.  A missing side is treated as
0, so the total is non-null as soon as either holding is present. -/
def computeTotalInstitutional (fii dii : Option ℚ) : Option ℚ :=
  if fii ≠ none ∨ dii ≠ none then some (fii.getD 0 + dii.getD 0) else none

/-- The sequence of `Math.random()` draws `generateDummyFiiDiiData` consumes,
each in [0, 1); draws 6 and 7 are consumed only inside the
simulate-increase branch. -/
structure RandDraws where
  r1 : ℚ
  r2 : ℚ
  r3 : ℚ
  r4 : ℚ
  r5 : ℚ
  r6 : ℚ
  r7 : ℚ
deriving DecidableEq

/-- `generateDummyFiiDiiData` (lines 560-601), with the random draws passed
in explicitly: base holdings in realistic ranges, a 30-percent chance of a
large quarter-over-quarter swing, and each output capped at 100. -/
def generateDummyFiiDiiData (rnd : RandDraws) (symbol : String)
    (quarter : String) (quarterEndDate : JsDate) : FiiDiiData :=
  let baseFii := rnd.r1 * 30 + 10
  let baseDii := rnd.r2 * 25 + 5
  let shouldSimulateIncrease := decide ((0.7 : ℚ) < rnd.r3)
  let fiiVariationInit := (rnd.r4 - 0.5) * 10
  let diiVariationInit := (rnd.r5 - 0.5) * 8
  let variations :=
    if shouldSimulateIncrease then
      if (0.5 : ℚ) < rnd.r6 then (rnd.r7 * 20 + 10, diiVariationInit)
      else (fiiVariationInit, rnd.r7 * 15 + 8)
    else (fiiVariationInit, diiVariationInit)
  let fiiHolding := min (round2 (baseFii + variations.1)) 100
  let diiHolding := min (round2 (baseDii + variations.2)) 100
  let total := min (round2 (fiiHolding + diiHolding)) 100
  { symbol := symbol, quarter := quarter, quarterEndDate := quarterEndDate,
    fiiHolding := some fiiHolding, diiHolding := some diiHolding,
    totalInstitutional := some total }

/-- The category synonyms the flat row parser distinguishes (lines 346-375).
Each constructor stands for one branch of the case-insensitive `includes`
chain; `other` is any category string matching none of them.  The
mutual-fund / insurance / bank / financial-institution synonyms are DII
components and are accumulated rather than overwritten. -/
inductive HoldCat
  | foreignInstitutional
  | domesticInstitutional
  | fiiExact
  | diiExact
  | foreignPortfolio
  | mutualFunds
  | insurance
  | banks
  | financialInstitutions
  | other
deriving DecidableEq

/-- One row of a dated shareholding list: a category and its parsed value
(`none` models a value whose `parseFloat` gave NaN and is skipped). -/
structure HoldRow where
  category : HoldCat
  value : Option ℚ
deriving DecidableEq

/-- One step of the flat second-pass parse (lines 346-375), updating the
(fii, dii) accumulator exactly as the branch chain does. -/
def applyFlatRow (acc : Option ℚ × Option ℚ) (row : HoldRow) :
    Option ℚ × Option ℚ :=
  match row.value with
  | none => acc
  | some v =>
    match row.category with
    | .foreignInstitutional => (some v, acc.2)
    | .domesticInstitutional => (acc.1, some v)
    | .fiiExact => (some v, acc.2)
    | .diiExact => (acc.1, some v)
    | .foreignPortfolio => (some v, acc.2)
    | .mutualFunds => (acc.1, some (acc.2.getD 0 + v))
    | .insurance => (acc.1, some (acc.2.getD 0 + v))
    | .banks => (acc.1, some (acc.2.getD 0 + v))
    | .financialInstitutions => (acc.1, some (acc.2.getD 0 + v))
    | .other => acc

/-- The flat parse of one dated row list, starting from the null/null
accumulator the surrounding code holds at that point. -/
def parseFlatRows (rows : List HoldRow) : Option ℚ × Option ℚ :=
  rows.foldl applyFlatRow (none, none)

/-- A parsed date key of the date-keyed time-series structure, e.g.
"30-Sep-2025"; the month is the 1-indexed number the month-name map yields. -/
structure DateKey where
  day : Nat
  month : Nat
  year : Int
deriving DecidableEq

/-- Chronological comparison of parsed date keys: the sort comparator at
lines 259-271 compares the keys by their reconstructed timestamps, which for
valid keys is (year, month, day) lexicographic order. -/
def DateKey.chronLt (a b : DateKey) : Bool :=
  decide (a.year < b.year) ||
    (a.year == b.year && (a.month < b.month || (a.month == b.month && a.day < b.day)))

/-- `Object.keys(data).sort(desc)[0]` (lines 259-275): the first maximum of
the key list under chronological order (the sort is stable, so among equal
keys the earliest-enumerated wins). -/
def selectLatestDate (ks : List DateKey) : Option DateKey :=
  match ks with
  | [] => none
  | k :: rest =>
    some (rest.foldl (fun best d => if DateKey.chronLt best d then d else best) k)

/-- Lines 280-288: map the latest date key to a quarter token,
`quarter = floor((monthNum - 1) / 3) + 1` of the key's own year. -/
def quarterOfDateKey (k : DateKey) : Quarter :=
  ⟨(k.month - 1) / 3 + 1, k.year⟩

/-- The slice of the untyped NSE payload the extraction code probes.
`tsData` is the date-keyed `shareholdingData.data` object (association list
in key-enumeration order); `fiiProp` / `diiProp` model the direct-property
probes of lines 437-469 (`shareholdingData.fii`, the case-insensitive named
keys, and the remaining probes, which all overwrite the accumulator in the
same way): the outer `Option` is property presence, the inner `Option` is
the numeric value extracted from it (`none` = the probe chain ended in
`null`). -/
structure Payload where
  tsData : Option (List (DateKey × List HoldRow))
  fiiProp : Option (Option ℚ)
  diiProp : Option (Option ℚ)

/-- Lines 500-514: a holding value in the open interval (0, 1) is read as a
fraction and scaled to a percentage. -/
def normalizeHolding (x : ℚ) : ℚ :=
  if 0 < x ∧ x < 1 then x * 100 else x

/-- The live extraction pipeline over the modelled payload slice: the
date-keyed time-series parse (lines 256-432) producing the holdings and the
mapped quarter, then the direct-property overwrites (lines 437-469), then
the fraction-to-percentage normalization (lines 500-514).  Returns
(fii, dii, mapped quarter). -/
def extractHoldings (p : Payload) : Option ℚ × Option ℚ × Option Quarter :=
  let ts :=
    match p.tsData with
    | none => (none, none, none)
    | some entries =>
      match selectLatestDate (entries.map Prod.fst) with
      | none => (none, none, none)
      | some latest =>
        let rows :=
          ((entries.find? fun (e : DateKey × List HoldRow) => e.1 == latest).map
            Prod.snd).getD []
        let fd := parseFlatRows rows
        (fd.1, fd.2, some (quarterOfDateKey latest))
  let fii := match p.fiiProp with | some v => v | none => ts.1
  let dii := match p.diiProp with | some v => v | none => ts.2.1
  (fii.map normalizeHolding, dii.map normalizeHolding, ts.2.2)

/-- How one call to the external source can end, as observed by
`fetchFiiDiiData`: the call throws, the client is unavailable, or it yields
a payload (possibly one no strategy can extract from). -/
inductive SourceOutcome
  | throwsErr
  | unavailable
  | payload (p : Payload)

/-- `fetchFiiDiiData` (lines 114-554), with the ambient pieces passed in
explicitly: the `USE_REAL_API` switch (`useDummyData` true means the switch
is off), the source outcome, the random draws the synthetic generator would
consume, and the target quarter already parsed.  Every failure path falls
back to the synthetic generator; when extraction succeeds the record is
built from the extracted holdings, rounded to 2 decimals, and tagged with
the mapped quarter when the time-series carried one (lines 522-537). -/
def fetchFiiDiiData (useDummyData : Bool) (outcome : SourceOutcome)
    (rnd : RandDraws) (symbol : String) (targetQuarter : Quarter) :
    Option FiiDiiData :=
  let quarterEndDate := getQuarterEndDateFiiDii targetQuarter
  let dummy := generateDummyFiiDiiData rnd symbol (quarterToken targetQuarter)
    quarterEndDate
  if useDummyData then some dummy
  else
    match outcome with
    | .throwsErr => some dummy
    | .unavailable => some dummy
    | .payload p =>
      let ext := extractHoldings p
      let fii := ext.1
      let dii := ext.2.1
      let totalInstitutional := computeTotalInstitutional fii dii
      let finalQuarter := match ext.2.2 with
        | some mq => mq
        | none => targetQuarter
      let finalEndDate := match ext.2.2 with
        | some mq => getQuarterEndDateFiiDii mq
        | none => quarterEndDate
      if fii ≠ none ∨ dii ≠ none then
        some { symbol := symbol, quarter := quarterToken finalQuarter,
               quarterEndDate := finalEndDate,
               fiiHolding := fii.map round2, diiHolding := dii.map round2,
               totalInstitutional := totalInstitutional.map round2 }
      else some dummy

/-- Fixed random draws for concrete evaluations (the payload-extraction path
never consumes them). -/
def rnd0 : RandDraws := ⟨0, 0, 0, 0, 0, 0, 0⟩

/-- A live payload whose direct `fii` property holds 20 and which carries no
DII information at all. -/
def payloadFiiOnly : Payload := ⟨none, some (some 20), none⟩

/-- Counterexample to C5: on a live payload where only the FII holding is
present (value 20), the returned record has a present `fiiHolding`, an
absent `diiHolding`, and `totalInstitutional = 20` — not null as the claim
requires when exactly one of the two holdings is present. -/
theorem total_institutional_single_side_cex :
    ∃ r, fetchFiiDiiData false (.payload payloadFiiOnly) rnd0 "TCS" ⟨1, 2025⟩
        = some r ∧
      r.fiiHolding ≠ none ∧ r.diiHolding = none ∧ r.totalInstitutional ≠ none := by
  have h : fetchFiiDiiData false (.payload payloadFiiOnly) rnd0 "TCS" ⟨1, 2025⟩
      = some { symbol := "TCS", quarter := quarterToken ⟨1, 2025⟩,
               quarterEndDate := getQuarterEndDateFiiDii ⟨1, 2025⟩,
               fiiHolding := some (round2 (normalizeHolding 20)),
               diiHolding := none,
               totalInstitutional := some (round2 (normalizeHolding 20 + 0)) } := rfl
  exact ⟨_, h, by simp, rfl, by simp⟩

/-- Claim C5 (amended): `totalInstitutional` is null iff both holdings are absent;
with both present it is their sum, and with exactly one present it equals
that one (the missing side is treated as 0).  In the synthetic generator the
total is the rounded sum of the two generated holdings capped at 100. -/
theorem total_institutional_amended :
    (∀ fii dii : Option ℚ,
      computeTotalInstitutional fii dii = none ↔ (fii = none ∧ dii = none)) ∧
    (∀ a b : ℚ, computeTotalInstitutional (some a) (some b) = some (a + b)) ∧
    (∀ a : ℚ, computeTotalInstitutional (some a) none = some a ∧
              computeTotalInstitutional none (some a) = some a) ∧
    (∀ rnd sym q d, (generateDummyFiiDiiData rnd sym q d).totalInstitutional
        = some (min (round2 ((generateDummyFiiDiiData rnd sym q d).fiiHolding.getD 0
            + (generateDummyFiiDiiData rnd sym q d).diiHolding.getD 0)) 100)) := by
  refine ⟨fun fii dii => ?_, fun a b => ?_, fun a => ⟨?_, ?_⟩, fun rnd sym q d => rfl⟩
  · rcases fii with _ | a <;> rcases dii with _ | b <;>
      simp [computeTotalInstitutional]
  · simp [computeTotalInstitutional]
  · simp [computeTotalInstitutional]
  · simp [computeTotalInstitutional]

/-- The mapped quarter reported by the extraction pipeline is the quarter of
the latest date key whenever the payload carries a non-empty date-keyed
time-series. -/
theorem extractHoldings_mapped_quarter (p : Payload)
    (entries : List (DateKey × List HoldRow)) (latest : DateKey)
    (hts : p.tsData = some entries)
    (hL : selectLatestDate (entries.map Prod.fst) = some latest) :
    (extractHoldings p).2.2 = some (quarterOfDateKey latest) := by
  unfold extractHoldings
  rw [hts]
  dsimp only
  rw [hL]

/-- Claim C9: in live mode, when the payload carries a non-empty date-keyed
time-series and the extraction yields at least one non-null holding, the
returned record's quarter (and quarter-end date) are derived from the latest
dated row actually found, not from the caller-requested target quarter. -/
theorem live_record_reports_mapped_quarter (p : Payload)
    (entries : List (DateKey × List HoldRow)) (rnd : RandDraws)
    (symbol : String) (targetQuarter : Quarter)
    (hts : p.tsData = some entries) (hne : entries ≠ [])
    (hfound : (extractHoldings p).1 ≠ none ∨ (extractHoldings p).2.1 ≠ none) :
    ∃ latest r, selectLatestDate (entries.map Prod.fst) = some latest ∧
      fetchFiiDiiData false (.payload p) rnd symbol targetQuarter = some r ∧
      r.quarter = quarterToken (quarterOfDateKey latest) ∧
      r.quarterEndDate = getQuarterEndDateFiiDii (quarterOfDateKey latest) := by
  rcases entries with _ | ⟨e, es⟩
  · exact absurd rfl hne
  obtain ⟨latest, hL⟩ : ∃ L, selectLatestDate (((e :: es)).map Prod.fst) = some L :=
    ⟨_, rfl⟩
  have hmq := extractHoldings_mapped_quarter p (e :: es) latest hts hL
  have hfetch : fetchFiiDiiData false (.payload p) rnd symbol targetQuarter
      = some { symbol := symbol,
               quarter := quarterToken (quarterOfDateKey latest),
               quarterEndDate := getQuarterEndDateFiiDii (quarterOfDateKey latest),
               fiiHolding := (extractHoldings p).1.map round2,
               diiHolding := (extractHoldings p).2.1.map round2,
               totalInstitutional :=
                 (computeTotalInstitutional (extractHoldings p).1
                   (extractHoldings p).2.1).map round2 } := by
    simp only [fetchFiiDiiData]
    rw [hmq]
    simp only [if_true, Bool.false_eq_true, if_false]
    rw [if_pos hfound]
  exact ⟨latest, _, hL, hfetch, rfl, rfl⟩

/-- Concrete payload of testable-property Scenario D: the only dated row is
keyed 30-Sep-2024 and carries a foreign-institutional holding of 25. -/
def payloadSepRow : Payload :=
  ⟨some [(⟨30, 9, 2024⟩, [⟨.foreignInstitutional, some 25⟩])], none, none⟩

/-- Witness for C9: requesting Q1-2025 against `payloadSepRow` yields a
record tagged with the data's own quarter Q3-2024. -/
theorem live_record_reports_mapped_quarter_witness :
    (payloadSepRow.tsData
        = some [(⟨30, 9, 2024⟩, [⟨.foreignInstitutional, some 25⟩])] ∧
      ([((⟨30, 9, 2024⟩ : DateKey), [(⟨.foreignInstitutional, some 25⟩ : HoldRow)])]
        ≠ ([] : List (DateKey × List HoldRow))) ∧
      ((extractHoldings payloadSepRow).1 ≠ none ∨
        (extractHoldings payloadSepRow).2.1 ≠ none)) ∧
    quarterToken ⟨3, 2024⟩ = "Q3-2024" ∧
    (∃ latest r,
      selectLatestDate
          (([(⟨30, 9, 2024⟩, [⟨.foreignInstitutional, some 25⟩])] :
            List (DateKey × List HoldRow)).map Prod.fst) = some latest ∧
      fetchFiiDiiData false (.payload payloadSepRow) rnd0 "TCS" ⟨1, 2025⟩ = some r ∧
      r.quarter = quarterToken (quarterOfDateKey latest) ∧
      r.quarterEndDate = getQuarterEndDateFiiDii (quarterOfDateKey latest)) :=
  ⟨⟨rfl, by simp, by decide⟩, by decide,
    live_record_reports_mapped_quarter payloadSepRow _ rnd0 "TCS" ⟨1, 2025⟩
      rfl (by simp) (by decide)⟩

/-- Claim C10: `fetchFiiDiiData` never returns null for any switch position or
source outcome, and on every failure path (the source call throws, the
client is unavailable, or no extraction strategy yields a non-null holding)
it returns the synthetic record for that single security. -/
theorem fetch_always_returns_record :
    (∀ (u : Bool) (o : SourceOutcome) (rnd : RandDraws) (sym : String)
        (tq : Quarter), fetchFiiDiiData u o rnd sym tq ≠ none) ∧
    (∀ rnd sym tq, fetchFiiDiiData false .throwsErr rnd sym tq
        = some (generateDummyFiiDiiData rnd sym (quarterToken tq)
            (getQuarterEndDateFiiDii tq))) ∧
    (∀ rnd sym tq, fetchFiiDiiData false .unavailable rnd sym tq
        = some (generateDummyFiiDiiData rnd sym (quarterToken tq)
            (getQuarterEndDateFiiDii tq))) ∧
    (∀ p rnd sym tq, (extractHoldings p).1 = none → (extractHoldings p).2.1 = none →
      fetchFiiDiiData false (.payload p) rnd sym tq
        = some (generateDummyFiiDiiData rnd sym (quarterToken tq)
            (getQuarterEndDateFiiDii tq))) := by
  refine ⟨?_, fun rnd sym tq => rfl, fun rnd sym tq => rfl, ?_⟩
  · intro u o rnd sym tq
    rcases u with _ | _
    · rcases o with _ | _ | p
      · simp [fetchFiiDiiData]
      · simp [fetchFiiDiiData]
      · unfold fetchFiiDiiData
        dsimp only
        split_ifs <;> simp
    · simp [fetchFiiDiiData]
  · intro p rnd sym tq h1 h2
    simp [fetchFiiDiiData, h1, h2]

/-- Witness for C10 on the empty payload, from which no strategy can
extract anything. -/
theorem fetch_always_returns_record_witness :
    ((extractHoldings ⟨none, none, none⟩).1 = none ∧
      (extractHoldings ⟨none, none, none⟩).2.1 = none) ∧
    fetchFiiDiiData false (.payload ⟨none, none, none⟩) rnd0 "TCS" ⟨1, 2025⟩
      = some (generateDummyFiiDiiData rnd0 "TCS" (quarterToken ⟨1, 2025⟩)
          (getQuarterEndDateFiiDii ⟨1, 2025⟩)) :=
  ⟨⟨rfl, rfl⟩,
    fetch_always_returns_record.2.2.2 ⟨none, none, none⟩ rnd0 "TCS" ⟨1, 2025⟩ rfl rfl⟩

/-! ## Significant-activity query (src/lib/fiiDiiService.ts, lines 731-791) -/

/-- JS string comparison: lexicographic on UTF-16 code units (the relational
operators use this order when both operands are strings). -/
def jsCharsLt : List Char → List Char → Bool
  | [], [] => false
  | [], _ :: _ => true
  | _ :: _, [] => false
  | a :: as, b :: bs =>
    if a.val < b.val then true
    else if b.val < a.val then false
    else jsCharsLt as bs

/-- JS `<` on two strings. -/
def jsStringLt (a b : String) : Bool := jsCharsLt a.data b.data

/-- JS `a > b` where `a` is a string and `b` is a string-or-undefined
property read: with `b` undefined the relational comparison converts it to
NaN and yields false; with both operands strings it is code-unit
lexicographic order. -/
def jsStringGt (a : String) (b : Option String) : Bool :=
  match b with
  | none => false
  | some s => jsStringLt s a

/-- The prisma `gte` filter on a nullable column: null never satisfies it. -/
def gteFilter (v : Option ℚ) (m : ℚ) : Bool :=
  match v with
  | none => false
  | some x => decide (m ≤ x)

/-- The `where` clause of the query (lines 738-757): significant records
with at least one delta at or above `minChange`. -/
def significantFilter (minChange : ℚ) (h : FiiDiiHoldingRec) : Bool :=
  h.isSignificant &&
    (gteFilter h.fiiChange minChange || gteFilter h.diiChange minChange ||
      gteFilter h.totalChange minChange)

/-- The value the grouping loop stores per stock (lines 782-786):
`{ ...holding.stock, fiiDiiData: holding, activityLevel }`.  The spread
stock row has no `quarter` column, so the merged object has no `quarter`
property either: reading `existing.quarter` at line 781 yields `undefined`,
modelled by `quarterProp`.  (The remaining spread stock fields and the
activity tier do not affect which record is kept and are omitted.) -/
structure GroupedEntry where
  fiiDiiData : FiiDiiHoldingRec
  quarterProp : Option String

/-- Building the stored entry from a holding: the object carries the holding
under `fiiDiiData` and no `quarter` property. -/
def mkGroupedEntry (h : FiiDiiHoldingRec) : GroupedEntry := ⟨h, none⟩

/-- The per-stock grouping loop (lines 775-788): walk the filtered holdings;
a stock's entry is replaced when `holding.quarter > existing.quarter` —
but `existing.quarter` is the absent property of the merged object, so the
comparison is string-versus-undefined and the branch never fires: the first
record iterated for a stock wins. -/
def groupLatestByStock (hs : List FiiDiiHoldingRec) :
    List (String × GroupedEntry) :=
  hs.foldl
    (fun m h =>
      match m.find? fun p => p.1 == h.stockId with
      | none => m ++ [(h.stockId, mkGroupedEntry h)]
      | some p =>
        if jsStringGt h.quarter p.2.quarterProp then
          m.map fun q => if q.1 == h.stockId then (h.stockId, mkGroupedEntry h) else q
        else m)
    []

/-- `getStocksWithSignificantFiiDiiActivity` (lines 731-791) restricted to
the holdings table passed in explicitly, in the order the query returns it
(its `orderBy` sorts on the change columns, which is independent of the
period): filter, then group per stock. -/
def getStocksWithSignificantFiiDiiActivity (minChange : ℚ)
    (holdings : List FiiDiiHoldingRec) : List (String × GroupedEntry) :=
  groupLatestByStock (holdings.filter (significantFilter minChange))

/-- A significant Q1-2025 holding record for stock "S". -/
def holdingQ1_2025 : FiiDiiHoldingRec :=
  ⟨"S", "Q1-2025", some 25, some 10, some 35, some 10, none, none, true⟩

/-- A significant Q4-2024 holding record for the same stock "S". -/
def holdingQ4_2024 : FiiDiiHoldingRec :=
  ⟨"S", "Q4-2024", some 22, some 10, some 32, some 10, none, none, true⟩

/-- Claim C3 fails on the code: the replacement comparison
`holding.quarter > existing.quarter` reads `quarter` from the merged
`{...stock, fiiDiiData, activityLevel}` object, which has no such property,
so the comparison is always false and the first record iterated for a stock
wins, whatever its period.  With the older Q4-2024 record first (as the
query's change-column ordering can deliver), the query returns Q4-2024 even
though (2025, Q1) is more recent; swapping the order swaps the result, so
the kept record tracks iteration order, not any period order. -/
theorem significant_activity_first_iterated_wins :
    (getStocksWithSignificantFiiDiiActivity 5 [holdingQ4_2024, holdingQ1_2025]).map
        (fun p => p.2.fiiDiiData.quarter) = ["Q4-2024"] ∧
    (getStocksWithSignificantFiiDiiActivity 5 [holdingQ1_2025, holdingQ4_2024]).map
        (fun p => p.2.fiiDiiData.quarter) = ["Q1-2025"] ∧
    (∀ (a : String) (h : FiiDiiHoldingRec),
      jsStringGt a (mkGroupedEntry h).quarterProp = false) ∧
    quarterToken ⟨1, 2025⟩ = "Q1-2025" ∧
    quarterToken ⟨4, 2024⟩ = "Q4-2024" := by
  exact ⟨by decide, by decide, fun a h => rfl, by decide, by decide⟩

/-! ## Quarter-result scheduler (src/unnamed/part_002) -/

/-- One row of the `quarterResult` table, unique on (stockId, quarter). -/
structure QuarterResultRec where
  stockId : String
  quarter : String
  quarterEndDate : JsDate
  expectedDate : JsDate
  actualDate : Option JsDate
  isAnnounced : Bool
  revenue : Option ℚ
  profit : Option ℚ
  eps : Option ℚ
deriving DecidableEq

/-- The `QuarterResultData` payload of `upsertQuarterResult` (lines 22-32);
optional fields model the `?` members. -/
structure QuarterResultData where
  stockId : String
  quarter : String
  quarterEndDate : JsDate
  expectedDate : JsDate
  actualDate : Option JsDate
  isAnnounced : Option Bool
  revenue : Option ℚ
  profit : Option ℚ
  eps : Option ℚ

/-- The natural-key test `(stockId, quarter)` used by `findUnique` and the
upserts. -/
def qrMatches (sid q : String) (r : QuarterResultRec) : Bool :=
  r.stockId == sid && r.quarter == q

/-- The `update` branch of the prisma upsert (lines 145-154): `x ?? undefined`
on an optional field leaves the stored column unchanged when `x` is absent,
while `isAnnounced` gets the explicit default `?? false`. -/
def applyUpdate (d : QuarterResultData) (r : QuarterResultRec) : QuarterResultRec :=
  { r with
    quarterEndDate := d.quarterEndDate
    expectedDate := d.expectedDate
    actualDate := match d.actualDate with
      | some x => some x
      | none => r.actualDate
    isAnnounced := d.isAnnounced.getD false
    revenue := match d.revenue with
      | some x => some x
      | none => r.revenue
    profit := match d.profit with
      | some x => some x
      | none => r.profit
    eps := match d.eps with
      | some x => some x
      | none => r.eps }

/-- The `create` branch of the prisma upsert (lines 155-165). -/
def createRec (d : QuarterResultData) : QuarterResultRec :=
  { stockId := d.stockId, quarter := d.quarter,
    quarterEndDate := d.quarterEndDate, expectedDate := d.expectedDate,
    actualDate := d.actualDate, isAnnounced := d.isAnnounced.getD false,
    revenue := d.revenue, profit := d.profit, eps := d.eps }

/-- `upsertQuarterResult` (lines 137-167) over the in-memory table: update
the row with the matching natural key if one exists, else append a new
row. -/
def upsertQuarterResult (store : List QuarterResultRec) (d : QuarterResultData) :
    List QuarterResultRec :=
  if store.any (qrMatches d.stockId d.quarter) then
    store.map fun r => if qrMatches d.stockId d.quarter r then applyUpdate d r else r
  else store ++ [createRec d]

/-- `markQuarterResultAnnounced` (lines 535-553): a prisma `update`, which
fails (`none`) when no row has the key; otherwise it sets the announced flag
and stamps `actualDate ?? new Date()`. -/
def markQuarterResultAnnounced (store : List QuarterResultRec) (sid q : String)
    (actualDate : Option JsDate) (now : JsDate) : Option (List QuarterResultRec) :=
  if store.any (qrMatches sid q) then
    some (store.map fun r =>
      if qrMatches sid q r then
        { r with isAnnounced := true, actualDate := some (actualDate.getD now) }
      else r)
  else none

/-- The loop body of `getUpcomingQuarters` (lines 122-132). -/
def upcomingQuartersAux : Nat → Quarter → List Quarter
  | 0, _ => []
  | n + 1, q => q :: upcomingQuartersAux n (getNextQuarter q)

/-- `getUpcomingQuarters(count)` starting from the current quarter of the
given clock value. -/
def getUpcomingQuarters (now : JsDate) (count : Nat) : List Quarter :=
  upcomingQuartersAux count (getCurrentQuarterAt now)

/-- The per-(stock, quarter) body of `generateQuarterResultsForAllStocks`
(lines 183-213): look up the existing row and, when there is none or
`new Date() > quarterEndDate`, upsert a row with `isAnnounced: false`. -/
def generateStep (now : JsDate) (st : List QuarterResultRec) (sid : String)
    (q : Quarter) : List QuarterResultRec :=
  let quarterEndDate := getQuarterEndDateQr q
  let expectedDate := getExpectedAnnouncementDate quarterEndDate
  let existing := st.find? (qrMatches sid (quarterToken q))
  if existing.isNone || quarterEndDate.jsLt now then
    upsertQuarterResult st
      { stockId := sid, quarter := quarterToken q,
        quarterEndDate := quarterEndDate, expectedDate := expectedDate,
        actualDate := none, isAnnounced := some false,
        revenue := none, profit := none, eps := none }
  else st

/-- `generateQuarterResultsForAllStocks` (lines 172-217): for every stock
and each of the current and next quarters, run the generation step. -/
def generateQuarterResultsForAllStocks (now : JsDate) (stocks : List String)
    (store : List QuarterResultRec) : List QuarterResultRec :=
  stocks.foldl
    (fun st sid =>
      (getUpcomingQuarters now 2).foldl (fun st2 q => generateStep now st2 sid q) st)
    store

/-- March 31, 2025, just after midnight: still inside Q1-2025, but strictly
after `new Date(2025, 2, 31)`. -/
def lastDayClock : JsDate := ⟨2025, 2, 31, 1⟩

/-- An announced Q1-2025 result row for stock "S". -/
def announcedQ1Rec : QuarterResultRec :=
  ⟨"S", "Q1-2025", ⟨2025, 2, 31, 0⟩,
    getExpectedAnnouncementDate ⟨2025, 2, 31, 0⟩,
    some ⟨2025, 3, 10, 0⟩, true, none, none, none⟩

/-- Counterexample to C4: running the generation pass on the last day of the
quarter (when `new Date() > quarterEndDate` already holds) overwrites an
announced Q1-2025 row with `isAnnounced = false`, so the pass does set the
flag back. -/
theorem generation_resets_announced_cex :
    announcedQ1Rec.isAnnounced = true ∧
    ((generateQuarterResultsForAllStocks lastDayClock ["S"] [announcedQ1Rec]).find?
        (qrMatches "S" "Q1-2025")).map QuarterResultRec.isAnnounced = some false := by
  exact ⟨rfl, by decide⟩

theorem applyUpdate_key (d : QuarterResultData) (r : QuarterResultRec) :
    (applyUpdate d r).stockId = r.stockId ∧ (applyUpdate d r).quarter = r.quarter :=
  ⟨rfl, rfl⟩

theorem find?_map_update (d : QuarterResultData) (sid q : String)
    (r : QuarterResultRec) (hne : ¬ (d.stockId = sid ∧ d.quarter = q)) :
    ∀ st : List QuarterResultRec, st.find? (qrMatches sid q) = some r →
      (st.map fun x =>
          if qrMatches d.stockId d.quarter x then applyUpdate d x else x).find?
        (qrMatches sid q) = some r := by
  intro st
  induction st with
  | nil => intro hf; simp at hf
  | cons a t ih =>
    intro hf
    rcases hqa : qrMatches sid q a with _ | _
    · have hqa2 : qrMatches sid q
          (if qrMatches d.stockId d.quarter a then applyUpdate d a else a) = false := by
        split_ifs with hda
        · unfold qrMatches at hqa ⊢
          simpa [applyUpdate] using hqa
        · exact hqa
      rw [List.find?_cons_of_neg _ (by simp [hqa])] at hf
      simp only [List.map_cons]
      rw [List.find?_cons_of_neg _ (by simp [hqa2])]
      exact ih hf
    · rw [List.find?_cons_of_pos _ hqa] at hf
      have hda : qrMatches d.stockId d.quarter a = false := by
        rcases h : qrMatches d.stockId d.quarter a with _ | _
        · rfl
        · exfalso
          apply hne
          unfold qrMatches at hqa h
          simp only [Bool.and_eq_true, beq_iff_eq] at hqa h
          exact ⟨h.1.symm.trans hqa.1, h.2.symm.trans hqa.2⟩
      simp only [List.map_cons, hda, Bool.false_eq_true, if_false]
      rw [List.find?_cons_of_pos _ hqa]
      exact hf

theorem find?_upsert_preserved (st : List QuarterResultRec)
    (d : QuarterResultData) (sid q : String) (r : QuarterResultRec)
    (hne : ¬ (d.stockId = sid ∧ d.quarter = q))
    (hf : st.find? (qrMatches sid q) = some r) :
    (upsertQuarterResult st d).find? (qrMatches sid q) = some r := by
  unfold upsertQuarterResult
  split_ifs with hany
  · exact find?_map_update d sid q r hne st hf
  · rw [List.find?_append, hf]
    rfl

theorem generateStep_preserved (now : JsDate) (st : List QuarterResultRec)
    (sid' : String) (qq : Quarter) (sid q : String) (r : QuarterResultRec)
    (hf : st.find? (qrMatches sid q) = some r)
    (hguard : sid' = sid → quarterToken qq = q →
      (getQuarterEndDateQr qq).jsLt now = false) :
    (generateStep now st sid' qq).find? (qrMatches sid q) = some r := by
  unfold generateStep
  dsimp only
  by_cases hkey : sid' = sid ∧ quarterToken qq = q
  · obtain ⟨h1, h2⟩ := hkey
    subst h1
    rw [h2, hf]
    simp [hguard rfl h2, hf]
  · split_ifs with hcond
    · exact find?_upsert_preserved st _ sid q r hkey hf
    · exact hf

theorem foldl_quarters_preserved (now : JsDate) (qs : List Quarter)
    (st : List QuarterResultRec) (sid' sid q : String) (r : QuarterResultRec)
    (hf : st.find? (qrMatches sid q) = some r)
    (hguard : ∀ qq ∈ qs, sid' = sid → quarterToken qq = q →
      (getQuarterEndDateQr qq).jsLt now = false) :
    (qs.foldl (fun st2 qq => generateStep now st2 sid' qq) st).find?
      (qrMatches sid q) = some r := by
  induction qs generalizing st with
  | nil => exact hf
  | cons a l ih =>
    simp only [List.foldl_cons]
    exact ih _
      (generateStep_preserved now st sid' a sid q r hf (hguard a (by simp)))
      (fun qq hq => hguard qq (by simp [hq]))

/-- Claim C4 (amended): once a quarter-result row is announced, a generation-pass
run preserves it — row and flag intact — provided the run's clock is not
strictly past the end date of any materialized period carrying that row's
token; and `markQuarterResultAnnounced` always leaves the matching row with
`isAnnounced = true`, so re-announcing keeps the row announced.  (The
counterexample shows the proviso is necessary: past the period's end date
the pass resets the row to unannounced.) -/
theorem generation_announced_amended :
    (∀ (now : JsDate) (stocks : List String) (store : List QuarterResultRec)
        (sid q : String) (r : QuarterResultRec),
      store.find? (qrMatches sid q) = some r →
      r.isAnnounced = true →
      (∀ qq ∈ getUpcomingQuarters now 2, quarterToken qq = q →
        (getQuarterEndDateQr qq).jsLt now = false) →
      (generateQuarterResultsForAllStocks now stocks store).find? (qrMatches sid q)
        = some r) ∧
    (∀ (store : List QuarterResultRec) (sid q : String) (d : Option JsDate)
        (now : JsDate) (st' : List QuarterResultRec),
      markQuarterResultAnnounced store sid q d now = some st' →
      ∀ r' ∈ st', qrMatches sid q r' = true → r'.isAnnounced = true) := by
  constructor
  · intro now stocks store sid q r hf _ hguard
    unfold generateQuarterResultsForAllStocks
    induction stocks generalizing store with
    | nil => exact hf
    | cons s ss ih =>
      simp only [List.foldl_cons]
      exact ih _ (foldl_quarters_preserved now _ store s sid q r hf
        fun qq hq _ htok => hguard qq hq htok)
  · intro store sid q d now st' hmark r' hr' hkey
    unfold markQuarterResultAnnounced at hmark
    split_ifs at hmark with hany
    · obtain rfl : _ = st' := Option.some.inj hmark
      obtain ⟨x, _, hx⟩ := List.mem_map.1 hr'
      by_cases hxk : qrMatches sid q x = true
      · rw [if_pos hxk] at hx
        rw [← hx]
      · rw [if_neg hxk] at hx
        rw [← hx] at hkey
        exact absurd hkey hxk

/-- January 15, 2025: inside Q1-2025, before both materialized period
ends. -/
def midQuarterClock : JsDate := ⟨2025, 0, 15, 0⟩

/-- Witness for the amended C4: a mid-quarter generation run leaves the
announced Q1-2025 row untouched. -/
theorem generation_announced_amended_witness :
    ([announcedQ1Rec].find? (qrMatches "S" "Q1-2025") = some announcedQ1Rec ∧
      announcedQ1Rec.isAnnounced = true ∧
      (∀ qq ∈ getUpcomingQuarters midQuarterClock 2, quarterToken qq = "Q1-2025" →
        (getQuarterEndDateQr qq).jsLt midQuarterClock = false)) ∧
    (generateQuarterResultsForAllStocks midQuarterClock ["S"]
        [announcedQ1Rec]).find? (qrMatches "S" "Q1-2025") = some announcedQ1Rec :=
  ⟨⟨by decide, rfl, by decide⟩,
    generation_announced_amended.1 midQuarterClock ["S"] [announcedQ1Rec]
      "S" "Q1-2025" announcedQ1Rec (by decide) rfl (by decide)⟩

end StockTracker
